import Mathlib

/-!
Shallow embedding of the GitLens explorer / hover code
(`views/gitExplorer.ts`, `views/nodes/repositoriesNode.ts`,
`hovers/lineHoverController.ts`) and proofs about its behavior.

JavaScript `undefined` is modelled as `Option.none`; JS falsy checks on
numbers (`x || y`) are modelled explicitly (both `undefined` and `0` are
falsy).  Object identity is modelled with explicit allocation ids threaded
through a counter.
-/

/-- Arguments of the `gitlens.gitExplorer.refreshNode` command
(`RefreshNodeCommandArgs`); `maxCount` may be absent (undefined). -/
structure RefreshNodeCommandArgs where
  maxCount : Option Nat
deriving DecidableEq, Repr

/-- The paging-relevant part of an `ExplorerNode`: whether it supports
paging and its current `maxCount` (`none` = undefined/unlimited). -/
structure PagingNode where
  supportsPaging : Bool
  maxCount : Option Nat
deriving DecidableEq, Repr

/-- The `maxCount` adjustment performed by `GitExplorer.refreshNode`
(gitExplorer.ts lines 197-213): if args are supplied and the node supports
paging, `maxCount === undefined || maxCount === 0` assigns `args.maxCount`
directly, otherwise `node.maxCount = (node.maxCount || args.maxCount) +
args.maxCount` (JS `||` treats both undefined and 0 as falsy). -/
def refreshNodeMaxCount (node : PagingNode) (args : Option RefreshNodeCommandArgs) :
    PagingNode :=
  match args with
  | none => node
  | some a =>
    if node.supportsPaging then
      match a.maxCount with
      | none => { node with maxCount := none }
      | some m =>
        if m = 0 then { node with maxCount := some 0 }
        else
          let base :=
            match node.maxCount with
            | none => m
            | some k => if k = 0 then m else k
          { node with maxCount := some (base + m) }
    else node

/-- Repository descriptor as returned by `Container.git.getRepositories()`. -/
structure Repository where
  path : String
  index : Int
  closed : Bool
  normalizedPath : String
deriving DecidableEq, Repr

/-- The comparator `(a, b) => a.index - b.index` used to sort repositories. -/
def repoLE (a b : Repository) : Prop := a.index ≤ b.index

instance : DecidableRel repoLE := fun a b => inferInstanceAs (Decidable (a.index ≤ b.index))

instance : IsTotal Repository repoLE := ⟨fun a b => le_total a.index b.index⟩

instance : IsTrans Repository repoLE := ⟨fun _ _ _ => le_trans⟩

/-- `repositories.sort((a, b) => a.index - b.index)` (a stable sort by
ascending index). -/
def sortRepos (repos : List Repository) : List Repository :=
  List.insertionSort repoLE repos

/-- The payload of an explorer node relevant here: a `MessageNode` with its
text or a `RepositoryNode` with its repository descriptor. -/
inductive NodeKind where
  | message (text : String)
  | repository (repo : Repository)
deriving DecidableEq, Repr

/-- An explorer node; `id` is its allocation identity (each `new` in the
source allocates a fresh id), so equality of `Node` values models JS
reference identity. -/
structure Node where
  id : Nat
  kind : NodeKind
deriving DecidableEq, Repr

/-- Mutable state of a `RepositoriesNode`: the cached `children`
(`none` = never computed) plus the allocation counter. -/
structure RepositoriesNodeState where
  children : Option (List Node)
  nextId : Nat
deriving DecidableEq, Repr

/-- The loop body of `RepositoriesNode.getChildren` (repositoriesNode.ts
lines 27-35): one freshly-allocated `RepositoryNode` per repository,
skipping closed ones. -/
def mkRepoChildren : List Repository → Nat → List Node × Nat
  | [], n => ([], n)
  | r :: rest, n =>
    if r.closed then mkRepoChildren rest n
    else
      let (cs, n') := mkRepoChildren rest (n + 1)
      (⟨n, .repository r⟩ :: cs, n')

/-- `RepositoriesNode.getChildren` (repositoriesNode.ts lines 22-43), with
the repository set fetched from the backend passed as `repos`.  If children
are cached they are returned as-is; otherwise, an empty backend set returns
a fresh placeholder `MessageNode` WITHOUT caching it, and a non-empty set
builds (and caches) one `RepositoryNode` per open repository, sorted by
index. -/
def getChildrenRun (repos : List Repository) (s : RepositoriesNodeState) :
    List Node × RepositoriesNodeState :=
  match s.children with
  | some cs => (cs, s)
  | none =>
    if repos = [] then
      ([⟨s.nextId, .message "No repositories found"⟩], { s with nextId := s.nextId + 1 })
    else
      let (cs, n) := mkRepoChildren (sortRepos repos) s.nextId
      (cs, { children := some cs, nextId := n })

/-- Observable per-child effects of `RepositoriesNode.refresh`: a matched
child's own `refresh()` call, or a dropped child's `dispose()` call. -/
inductive ChildEvent where
  | refreshed (id : Nat)
  | disposed (id : Nat)
deriving DecidableEq, Repr

/-- The scan performed by `this.children.find(c => c.repo.normalizedPath
=== normalizedPath)` (repositoriesNode.ts line 59).  The cache is typed
`RepositoryNode[]` only by a cast: after a collapse it actually holds a
`MessageNode`, whose `repo` property is `undefined`, so reading
`.normalizedPath` on it throws a TypeError — modelled as `Except.error`.
Otherwise the scan yields the first repository child with the given
normalized path, or `none` when the whole list is scanned without a
match. -/
def findRepoByPath : List Node → String → Except Unit (Option Node)
  | [], _ => .ok none
  | c :: rest, p =>
    match c.kind with
    | .message _ => .error ()
    | .repository r =>
      if r.normalizedPath = p then .ok (some c) else findRepoByPath rest p

/-- The reconciliation loop of `RepositoriesNode.refresh`
(repositoriesNode.ts lines 56-67): for each fresh repository, reuse (and
refresh) the first old child with the same normalized path, otherwise
allocate a new `RepositoryNode`.  If the find callback throws (a
`MessageNode` sits in the cache before any match), the loop aborts: the
error carries the allocation counter and the child-refresh events of the
iterations already executed before the throw. -/
def reconcileE (old : List Node) : List Repository → Nat →
    Except (Nat × List ChildEvent) (List Node × Nat × List ChildEvent)
  | [], n => .ok ([], n, [])
  | r :: rest, n =>
    match findRepoByPath old r.normalizedPath with
    | .error _ => .error (n, [])
    | .ok (some c) =>
      match reconcileE old rest n with
      | .ok (cs, n', evs) => .ok (c :: cs, n', .refreshed c.id :: evs)
      | .error (n', evs) => .error (n', .refreshed c.id :: evs)
    | .ok none =>
      match reconcileE old rest (n + 1) with
      | .ok (cs, n', evs) => .ok (⟨n, .repository r⟩ :: cs, n', evs)
      | .error (n', evs) => .error (n', evs)

/-- `RepositoriesNode.refresh` (repositoriesNode.ts lines 45-77): no-op if
children were never computed; collapse to a fresh placeholder when the
fetched set is empty (unless already empty); otherwise reconcile by
normalized path against the sorted fresh set — note the loop does NOT skip
closed repositories — then dispose old children absent from the new list
and install it.  `Except.error` is the TypeError path: the find callback
read `.repo` of a cached `MessageNode`, so the async method rejects before
`this.children` is reassigned and the OLD cache stays installed (only the
child refreshes and allocations already performed have taken effect). -/
def refreshRun (repos : List Repository) (s : RepositoriesNodeState) :
    Except (RepositoriesNodeState × List ChildEvent)
      (RepositoriesNodeState × List ChildEvent) :=
  match s.children with
  | none => .ok (s, [])
  | some old =>
    if repos = [] then
      if old = [] then .ok (s, [])
      else
        .ok ({ children := some [⟨s.nextId, .message "No repositories found"⟩],
               nextId := s.nextId + 1 }, [])
    else
      match reconcileE old (sortRepos repos) s.nextId with
      | .ok (cs, n, evs) =>
        .ok ({ children := some cs, nextId := n },
          evs ++ (old.filter (fun c => decide (c ∉ cs))).map
            (fun c => ChildEvent.disposed c.id))
      | .error (n, evs) => .error ({ s with nextId := n }, evs)

/-- The normalized paths of the repository nodes in a children list. -/
def kindPath : NodeKind → Option String
  | .repository r => some r.normalizedPath
  | .message _ => none

/-- All normalized repository paths referenced by a children list. -/
def childPaths (cs : List Node) : List String :=
  cs.filterMap (fun c => kindPath c.kind)

/-- The open repository `/a` (index 1) of the spec scenario. -/
def rOpenA : Repository := ⟨"/a", 1, false, "/a"⟩

/-- The closed repository `/b` (index 0) of the spec scenario. -/
def rClosedB : Repository := ⟨"/b", 0, true, "/b"⟩

/-- Repository `/a` as held by the cached child in the C8 witness. -/
def c8rA : Repository := ⟨"/a", 0, false, "/a"⟩

/-- Repository `/b` as held by the cached child in the C8 witness. -/
def c8rB : Repository := ⟨"/b", 1, false, "/b"⟩

/-- Repository `/c` as held by the cached child in the C8 witness. -/
def c8rC : Repository := ⟨"/c", 2, false, "/c"⟩

/-- Re-fetched `/b` descriptor (new index) in the C8 witness. -/
def c8rB2 : Repository := ⟨"/b", 0, false, "/b"⟩

/-- Re-fetched `/c` descriptor (new index) in the C8 witness. -/
def c8rC2 : Repository := ⟨"/c", 1, false, "/c"⟩

/-- Newly-appearing repository `/d` in the C8 witness. -/
def c8rD : Repository := ⟨"/d", 2, false, "/d"⟩

/-- State with cached children for {A,B,C} (ids 10,11,12) in the C8
witness. -/
def c8s : RepositoriesNodeState :=
  ⟨some [⟨10, .repository c8rA⟩, ⟨11, .repository c8rB⟩, ⟨12, .repository c8rC⟩], 13⟩

/-- The tree-view handle created by `window.createTreeView`; its identity is
an allocation id, and it remembers the location it was registered at. -/
structure TreeHandle where
  id : Nat
  location : String
deriving DecidableEq, Repr

/-- The `GitExplorer` state relevant to the view-location lifecycle: the
root node (by allocation id), the tree-view handle (with its paired
`_disposable`), the generation of the `_onDidChangeTreeData` emitter, the
allocation counter, and the log of disposed tree handles. -/
structure GitExplorerViewState where
  root : Option Nat
  tree : Option TreeHandle
  emitterGen : Nat
  nextId : Nat
  disposedTrees : List Nat
deriving DecidableEq, Repr

/-- `GitExplorer.setRoot` (gitExplorer.ts lines 279-283): creates a
`RepositoriesNode` root only when none exists; an existing root is kept. -/
def setRoot (s : GitExplorerViewState) : GitExplorerViewState :=
  match s.root with
  | some _ => s
  | none => { s with root := some s.nextId, nextId := s.nextId + 1 }

/-- The location-change block of `GitExplorer.onConfigurationChanged`
(gitExplorer.ts lines 113-127): if a tree handle exists, dispose it and
recreate the `_onDidChangeTreeData` emitter; then `setRoot()` and create a
fresh tree view bound at the (new) configured location. -/
def onLocationChanged (s : GitExplorerViewState) (newLocation : String) :
    GitExplorerViewState :=
  let s1 :=
    match s.tree with
    | some t =>
      { s with
        tree := none
        disposedTrees := s.disposedTrees ++ [t.id]
        emitterGen := s.emitterGen + 1 }
    | none => s
  let s2 := setRoot s1
  { s2 with tree := some ⟨s2.nextId, newLocation⟩, nextId := s2.nextId + 1 }

/-- Externally observable actions of `GitExplorer.setAutoRefresh`, in
execution order: disposing the previous repository-change subscription,
persisting the per-workspace flag, firing `_onDidChangeAutoRefresh`,
subscribing to `onDidChangeRepositories`, publishing the
`gitlens:gitExplorer:autoRefresh` command context, and triggering
`refresh(RefreshReason.AutoRefreshChanged)`. -/
inductive AREvent where
  | disposedSub (id : Nat)
  | persisted (b : Bool)
  | firedAutoRefreshChanged
  | subscribed (id : Nat)
  | setContext (b : Bool)
  | refreshed
deriving DecidableEq, Repr

/-- Auto-refresh state of `GitExplorer`: the current repository-change
subscription handle (`_autoRefreshDisposable`), the persisted per-workspace
boolean (`WorkspaceState.GitExplorerAutoRefresh`; `none` = never written,
read with default `true`), and the allocation counter for subscription
handles. -/
structure AutoRefreshState where
  sub : Option Nat
  workspaceFlag : Option Bool
  nextId : Nat
deriving DecidableEq, Repr

/-- `GitExplorer.setAutoRefresh` (gitExplorer.ts lines 217-249): always
dispose any existing subscription first; if `enabled`, resolve the
workspace flag (read the persisted value with default `true` when no
override is supplied; otherwise persist the override, fire the
auto-refresh-changed notification, and remember `toggled = override`);
subscribe to repository changes iff the resolved flag is true; always
publish `enabled && workspaceEnabled` to the command context; and finally
trigger a tree refresh iff `toggled`. -/
def setAutoRefresh (enabled : Bool) (workspaceEnabled : Option Bool)
    (s : AutoRefreshState) : AutoRefreshState × List AREvent :=
  let disposeEvents : List AREvent :=
    match s.sub with
    | some i => [.disposedSub i]
    | none => []
  let s1 : AutoRefreshState := { s with sub := none }
  if enabled then
    let we : Bool :=
      match workspaceEnabled with
      | none => s1.workspaceFlag.getD true
      | some b => b
    let toggled : Bool :=
      match workspaceEnabled with
      | none => false
      | some b => b
    let s2 : AutoRefreshState :=
      match workspaceEnabled with
      | none => s1
      | some b => { s1 with workspaceFlag := some b }
    let persistEvents : List AREvent :=
      match workspaceEnabled with
      | none => []
      | some b => [.persisted b, .firedAutoRefreshChanged]
    let subPair :=
      if we then
        ({ s2 with sub := some s2.nextId, nextId := s2.nextId + 1 },
         ([.subscribed s2.nextId] : List AREvent))
      else (s2, [])
    (subPair.1, disposeEvents ++ persistEvents ++ subPair.2
      ++ [.setContext (enabled && we)]
      ++ if toggled then [.refreshed] else [])
  else
    (s1, disposeEvents ++ [.setContext false])

/-- The effective workspace flag as the spec words it: the override when
supplied, otherwise the persisted per-workspace boolean defaulting to
true. -/
def effectiveWorkspaceFlag (workspaceEnabled : Option Bool)
    (s : AutoRefreshState) : Bool :=
  workspaceEnabled.getD (s.workspaceFlag.getD true)

/-- JS `Number.MAX_SAFE_INTEGER`, used as the start character of the
annotation sub-range before `document.validateRange` clamps it to the line
length. -/
def maxSafeInteger : Nat := 2 ^ 53 - 1

/-- A git commit object as consumed by the hover controller (blame commit
or log commit). -/
structure Commit where
  sha : String
  repoPath : String
  fsPath : String
  isUncommitted : Bool
  previousSha : Option String
  previousFileName : Option String
  summary : String
deriving DecidableEq, Repr

/-- The line tracker's per-line state: the attributed blame commit and the
lazily-cached fuller log commit. -/
structure LineState where
  commit : Option Commit
  logCommit : Option Commit
deriving DecidableEq, Repr

/-- The hover-relevant configuration: `hovers.annotations.details`,
`hovers.annotations.changes`, and whether `hovers.currentLine.over` is
`line`. -/
structure HoverSettings where
  annotationsDetails : Bool
  annotationsChanges : Bool
  currentLineOverLine : Bool
deriving DecidableEq, Repr

/-- The collaborators read by `provideDetailsHover` / `provideChangesHover`:
line tracker (`includes`, `getState`), whole-file annotation state
(`fileAnnotations` = an annotation type is active), configuration,
suspended line annotations, the internal debugging flag, document line
lengths (for `validateRange` clamping), the git backend's
`getLogCommitForFile`, the document tracker, and the diff hover content
computed by `Annotations.changesHover`. -/
structure HoverEnv where
  includes : Nat → Bool
  getState : Nat → Option LineState
  fileAnnotations : Bool
  settings : HoverSettings
  lineAnnotationsSuspended : Bool
  debugging : Bool
  lineLength : Nat → Nat
  gitLogCommit : String → String → String → Option Commit
  trackedDocument : Bool
  changesHoverMessage : Option String

/-- A details hover: the start character of its range and the commit its
message was built from (`logCommit || commit`). -/
structure DetailsHoverData where
  startChar : Nat
  messageCommit : Commit
deriving DecidableEq, Repr

/-- The observable outcome of `provideDetailsHover`: the hover (if any),
the line state afterwards (with any cached log-commit upgrade), and the
`getLogCommitForFile` calls made (repoPath, fsPath, ref). -/
structure DetailsResult where
  hover : Option DetailsHoverData
  lineStateAfter : Option LineState
  gitLogCalls : List (String × String × String)
deriving DecidableEq, Repr

/-- `LineHoverController.provideDetailsHover` (lineHoverController.ts lines
99-151): gates on line tracking, attributed commit, duplicate whole-file
details annotations, suspended annotations in sub-range mode, and the
sub-range position check; while debugging, `wholeLine` is FORCED TO FALSE;
lazily upgrades the blame commit to a log commit (only when the commit is
not uncommitted), preserving previous-commit linkage and caching the
upgrade in the line state; finally builds the message from
`logCommit || commit`. -/
def provideDetailsHover (env : HoverEnv) (line char : Nat) : DetailsResult :=
  let ls := env.getState line
  if env.includes line = false then ⟨none, ls, []⟩
  else
    match ls with
    | none => ⟨none, none, []⟩
    | some st =>
      match st.commit with
      | none => ⟨none, some st, []⟩
      | some commit =>
        if env.fileAnnotations = true ∧ env.settings.annotationsDetails = true then
          ⟨none, some st, []⟩
        else
          let wholeLine : Bool :=
            if env.debugging then false else env.settings.currentLineOverLine
          if wholeLine = false ∧ env.lineAnnotationsSuspended = true then
            ⟨none, some st, []⟩
          else
            let startChar :=
              min (if wholeLine then 0 else maxSafeInteger) (env.lineLength line)
            if wholeLine = false ∧ startChar ≠ char then ⟨none, some st, []⟩
            else
              match st.logCommit, commit.isUncommitted with
              | none, false =>
                match env.gitLogCommit commit.repoPath commit.fsPath commit.sha with
                | some lc =>
                  let lc2 := { lc with
                    previousSha := commit.previousSha
                    previousFileName := commit.previousFileName }
                  if env.trackedDocument = false then
                    ⟨none, some { st with logCommit := some lc2 },
                     [(commit.repoPath, commit.fsPath, commit.sha)]⟩
                  else
                    ⟨some ⟨startChar, lc2⟩, some { st with logCommit := some lc2 },
                     [(commit.repoPath, commit.fsPath, commit.sha)]⟩
                | none =>
                  if env.trackedDocument = false then
                    ⟨none, some st, [(commit.repoPath, commit.fsPath, commit.sha)]⟩
                  else
                    ⟨some ⟨startChar, commit⟩, some st,
                     [(commit.repoPath, commit.fsPath, commit.sha)]⟩
              | _, _ =>
                if env.trackedDocument = false then ⟨none, some st, []⟩
                else ⟨some ⟨startChar, st.logCommit.getD commit⟩, some st, []⟩

/-- A changes (diff) hover: the start character of its range and the diff
message. -/
structure ChangesHoverData where
  startChar : Nat
  message : String
deriving DecidableEq, Repr

/-- `LineHoverController.provideChangesHover` (lineHoverController.ts lines
153-186): the same gating as the details hover except the
duplicate-annotation check is keyed to `hovers.annotations.changes`, plus
the tracked-document gate and the requirement that the computed diff hover
has content; while debugging, `wholeLine` is likewise forced to false. -/
def provideChangesHover (env : HoverEnv) (line char : Nat) : Option ChangesHoverData :=
  if env.includes line = false then none
  else
    match env.getState line with
    | none => none
    | some st =>
      match st.commit with
      | none => none
      | some _ =>
        if env.settings.annotationsChanges = true ∧ env.fileAnnotations = true then
          none
        else
          let wholeLine : Bool :=
            if env.debugging then false else env.settings.currentLineOverLine
          if wholeLine = false ∧ env.lineAnnotationsSuspended = true then none
          else
            let startChar :=
              min (if wholeLine then 0 else maxSafeInteger) (env.lineLength line)
            if wholeLine = false ∧ startChar ≠ char then none
            else if env.trackedDocument = false then none
            else
              match env.changesHoverMessage with
              | none => none
              | some msg => some ⟨startChar, msg⟩

/-- An uncommitted blame commit used in the hover examples. -/
def cUncommitted : Commit := ⟨"0000", "/repo", "/repo/f.ts", true, none, none, "WIP"⟩

/-- Hover environment with an active debug session, `hovers.currentLine.over`
set to `line`, line 0 tracked with an uncommitted blame commit, no whole-file
annotations, nothing suspended, line length 5. -/
def envC2 : HoverEnv where
  includes := fun l => l == 0
  getState := fun l => if l = 0 then some ⟨some cUncommitted, none⟩ else none
  fileAnnotations := false
  settings := ⟨true, true, true⟩
  lineAnnotationsSuspended := false
  debugging := true
  lineLength := fun _ => 5
  gitLogCommit := fun _ _ _ => none
  trackedDocument := true
  changesHoverMessage := some "diff"

/-- C1 counterexample: on a paging-capable node with no prior `maxCount`,
calling `refreshNode` twice with `{maxCount: 20}` yields `maxCount = 60`,
not `40` as the claim states (already the first call yields 40, because an
absent `maxCount` is replaced by the increment before adding). -/
theorem c1_refreshNode_twice_not_forty :
    (refreshNodeMaxCount
        (refreshNodeMaxCount ⟨true, none⟩ (some ⟨some 20⟩)) (some ⟨some 20⟩)).maxCount
      = some 60 ∧ some (60 : Nat) ≠ some (40 : Nat) := by
  constructor
  · rfl
  · decide

/-- C1 (amended): on a paging-capable node with no prior `maxCount`, a call
with a non-zero increment `m` yields `2*m` and a second such call yields
`3*m` (so `{maxCount: 20}` twice gives 60, not 40); a call with
`maxCount = 0` resets to 0, a call with `maxCount` absent resets to
undefined, and a node that does not support paging is left unchanged. -/
theorem c1_refreshNode_maxCount_spec (m : Nat) (hm : m ≠ 0) (node : PagingNode)
    (args : Option RefreshNodeCommandArgs) :
    (refreshNodeMaxCount ⟨true, none⟩ (some ⟨some m⟩)).maxCount = some (2 * m)
    ∧ (refreshNodeMaxCount (refreshNodeMaxCount ⟨true, none⟩ (some ⟨some m⟩))
        (some ⟨some m⟩)).maxCount = some (3 * m)
    ∧ (node.supportsPaging = true →
        (refreshNodeMaxCount node (some ⟨some 0⟩)).maxCount = some 0)
    ∧ (node.supportsPaging = true →
        (refreshNodeMaxCount node (some ⟨none⟩)).maxCount = none)
    ∧ (node.supportsPaging = false → refreshNodeMaxCount node args = node) := by
  refine ⟨?_, ?_, ?_, ?_, ?_⟩
  · simp [refreshNodeMaxCount, hm]; omega
  · simp [refreshNodeMaxCount, hm]; omega
  · intro h
    simp [refreshNodeMaxCount, h]
  · intro h
    simp [refreshNodeMaxCount, h]
  · intro h
    cases args with
    | none => rfl
    | some a => simp [refreshNodeMaxCount, h]

/-- Witness for C1 (amended) at `m = 20` and a concrete non-paging node. -/
theorem c1_refreshNode_maxCount_spec_witness :
    (refreshNodeMaxCount ⟨true, none⟩ (some ⟨some 20⟩)).maxCount = some (2 * 20)
    ∧ (refreshNodeMaxCount (refreshNodeMaxCount ⟨true, none⟩ (some ⟨some 20⟩))
        (some ⟨some 20⟩)).maxCount = some (3 * 20)
    ∧ ((⟨true, some 7⟩ : PagingNode).supportsPaging = true →
        (refreshNodeMaxCount ⟨true, some 7⟩ (some ⟨some 0⟩)).maxCount = some 0)
    ∧ ((⟨true, some 7⟩ : PagingNode).supportsPaging = true →
        (refreshNodeMaxCount ⟨true, some 7⟩ (some ⟨none⟩)).maxCount = none)
    ∧ ((⟨true, some 7⟩ : PagingNode).supportsPaging = false →
        refreshNodeMaxCount ⟨true, some 7⟩ (some ⟨some 5⟩) = ⟨true, some 7⟩) :=
  c1_refreshNode_maxCount_spec 20 (by decide) ⟨true, some 7⟩ (some ⟨some 5⟩)

theorem mkRepoChildren_map_kind (l : List Repository) (n : Nat) :
    (mkRepoChildren l n).1.map Node.kind
      = (l.filter (fun r => !r.closed)).map NodeKind.repository := by
  induction l generalizing n with
  | nil => rfl
  | cons r rest ih =>
    by_cases h : r.closed
    · simp [mkRepoChildren, h, ih]
    · simp [mkRepoChildren, h, ih]

/-- C3 counterexample: for the backend set `[{path:"/b", index:0,
closed:true}]`, which contains no open repository, the first
`getChildren()` returns the empty list — not the single
`No repositories found` placeholder the claim requires (the placeholder
is produced only when the fetched set itself is empty). -/
theorem c3_allClosed_no_placeholder :
    (getChildrenRun [rClosedB] ⟨none, 0⟩).1 = [] ∧ rClosedB.closed = true := by
  constructor
  · rfl
  · rfl

/-- C3 (amended): on a first call (no cached children), `getChildren`
returns the placeholder `MessageNode` exactly when the fetched repository
set is empty (NOT when it merely contains no open repository); otherwise it
returns exactly one `RepositoryNode` per non-closed repository, in the
order of the set sorted by ascending index (that filtered, sorted list is
sorted with respect to `repoLE`). -/
theorem c3_getChildren_spec (repos : List Repository) (s : RepositoriesNodeState)
    (h : s.children = none) :
    (getChildrenRun repos s).1.map Node.kind
      = (if repos = [] then [NodeKind.message "No repositories found"]
         else ((sortRepos repos).filter (fun r => !r.closed)).map NodeKind.repository)
    ∧ List.Sorted repoLE ((sortRepos repos).filter (fun r => !r.closed)) := by
  constructor
  · by_cases hr : repos = []
    · simp [getChildrenRun, h, hr]
    · simp [getChildrenRun, h, hr, mkRepoChildren_map_kind]
  · exact List.Pairwise.filter _ (List.sorted_insertionSort repoLE repos)

/-- Witness for C3 (amended) at the spec scenario
`[{path:"/a", index:1, closed:false}, {path:"/b", index:0, closed:true}]`. -/
theorem c3_getChildren_spec_witness :
    ((getChildrenRun [rOpenA, rClosedB] ⟨none, 0⟩).1.map Node.kind
      = (if ([rOpenA, rClosedB] : List Repository) = []
         then [NodeKind.message "No repositories found"]
         else ((sortRepos [rOpenA, rClosedB]).filter (fun r => !r.closed)).map
           NodeKind.repository))
    ∧ List.Sorted repoLE ((sortRepos [rOpenA, rClosedB]).filter (fun r => !r.closed)) :=
  c3_getChildren_spec [rOpenA, rClosedB] ⟨none, 0⟩ rfl

/-- C7 counterexample: with an empty repository set, the placeholder
returned by the first `getChildren()` is not cached, so a second call
allocates a fresh `MessageNode` — the two calls do not return the
identical node instance. -/
theorem c7_empty_placeholder_not_cached :
    (getChildrenRun [] ⟨none, 0⟩).1 = [⟨0, .message "No repositories found"⟩]
    ∧ (getChildrenRun [] (getChildrenRun [] ⟨none, 0⟩).2).1
        = [⟨1, .message "No repositories found"⟩]
    ∧ (⟨0, NodeKind.message "No repositories found"⟩ : Node)
        ≠ ⟨1, NodeKind.message "No repositories found"⟩ := by
  refine ⟨rfl, rfl, by decide⟩

/-- C7 (amended): for a NON-EMPTY repository set, the first `getChildren()`
caches its children and a second call (with any backend set, which is not
even consulted) returns the identical cached list and leaves the state
unchanged; for an empty set the placeholder is not cached (the cache stays
`none`), so it is rebuilt fresh on each call. -/
theorem c7_getChildren_cached (repos repos2 : List Repository)
    (s : RepositoriesNodeState) (h : s.children = none) :
    (repos ≠ [] →
      getChildrenRun repos2 (getChildrenRun repos s).2 = getChildrenRun repos s
      ∧ ((getChildrenRun repos s).2).children = some (getChildrenRun repos s).1)
    ∧ (repos = [] → ((getChildrenRun repos s).2).children = none) := by
  constructor
  · intro hne
    constructor
    · simp [getChildrenRun, h, hne]
    · simp [getChildrenRun, h, hne]
  · intro he
    simp [getChildrenRun, h, he]

/-- Witness for C7 (amended): a concrete one-repository set, cached across
a second call made with a different (empty) backend set. -/
theorem c7_getChildren_cached_witness :
    (([rOpenA] : List Repository) ≠ [] →
      getChildrenRun [] (getChildrenRun [rOpenA] ⟨none, 0⟩).2
          = getChildrenRun [rOpenA] ⟨none, 0⟩
      ∧ ((getChildrenRun [rOpenA] ⟨none, 0⟩).2).children
          = some (getChildrenRun [rOpenA] ⟨none, 0⟩).1)
    ∧ (([rOpenA] : List Repository) = [] →
        ((getChildrenRun [rOpenA] ⟨none, 0⟩).2).children = none) :=
  c7_getChildren_cached [rOpenA] [] ⟨none, 0⟩ rfl

/-- C8: with cached children for paths {A,B,C} and a re-fetched set
{B,C,D} (sorted, pairwise-distinct paths), `refresh()` keeps the B and C
child instances unchanged (their ids `ib`, `ic`) and asks them to refresh
themselves, allocates a fresh child for D (id `s.nextId`), and disposes the
A child exactly once; the new list follows the order of the sorted fresh
set. -/
theorem c8_refresh_reconciliation
    (s : RepositoriesNodeState) (ia ib ic : Nat) (ra rb rc rb2 rc2 rd : Repository)
    (hch : s.children
      = some [⟨ia, .repository ra⟩, ⟨ib, .repository rb⟩, ⟨ic, .repository rc⟩])
    (hb : rb2.normalizedPath = rb.normalizedPath)
    (hc : rc2.normalizedPath = rc.normalizedPath)
    (hab : ra.normalizedPath ≠ rb.normalizedPath)
    (hac : ra.normalizedPath ≠ rc.normalizedPath)
    (hbc : rb.normalizedPath ≠ rc.normalizedPath)
    (hda : rd.normalizedPath ≠ ra.normalizedPath)
    (hdb : rd.normalizedPath ≠ rb.normalizedPath)
    (hdc : rd.normalizedPath ≠ rc.normalizedPath)
    (hsorted : sortRepos [rb2, rc2, rd] = [rb2, rc2, rd]) :
    refreshRun [rb2, rc2, rd] s
      = .ok ({ children := some [⟨ib, .repository rb⟩, ⟨ic, .repository rc⟩,
             ⟨s.nextId, .repository rd⟩], nextId := s.nextId + 1 },
         [.refreshed ib, .refreshed ic, .disposed ia]) := by
  have hrab : ra ≠ rb := fun h => hab (by rw [h])
  have hrac : ra ≠ rc := fun h => hac (by rw [h])
  have hrda : ra ≠ rd := fun h => hda (by rw [h])
  have hrdb : rb ≠ rd := fun h => hdb (by rw [h])
  have hrdc : rc ≠ rd := fun h => hdc (by rw [h])
  have fb : findRepoByPath
      [⟨ia, .repository ra⟩, ⟨ib, .repository rb⟩, ⟨ic, .repository rc⟩]
      rb2.normalizedPath = .ok (some ⟨ib, .repository rb⟩) := by
    rw [hb]
    simp [findRepoByPath, hab]
  have fc : findRepoByPath
      [⟨ia, .repository ra⟩, ⟨ib, .repository rb⟩, ⟨ic, .repository rc⟩]
      rc2.normalizedPath = .ok (some ⟨ic, .repository rc⟩) := by
    rw [hc]
    simp [findRepoByPath, hac, hbc]
  have fd : findRepoByPath
      [⟨ia, .repository ra⟩, ⟨ib, .repository rb⟩, ⟨ic, .repository rc⟩]
      rd.normalizedPath = .ok none := by
    simp [findRepoByPath, Ne.symm hda, Ne.symm hdb, Ne.symm hdc]
  simp [refreshRun, hch, hsorted, reconcileE, fb, fc, fd, List.filter,
    Node.mk.injEq, NodeKind.repository.injEq, hrab, hrac, hrda, hrdb, hrdc]

/-- Witness for C8 at the concrete {A,B,C} → {B,C,D} scenario. -/
theorem c8_refresh_reconciliation_witness :
    refreshRun [c8rB2, c8rC2, c8rD] c8s
      = .ok ({ children := some [⟨11, .repository c8rB⟩, ⟨12, .repository c8rC⟩,
             ⟨c8s.nextId, .repository c8rD⟩], nextId := c8s.nextId + 1 },
         [.refreshed 11, .refreshed 12, .disposed 10]) :=
  c8_refresh_reconciliation c8s 10 11 12 c8rA c8rB c8rC c8rB2 c8rC2 c8rD
    rfl rfl rfl (by decide) (by decide) (by decide) (by decide) (by decide)
    (by decide) (by decide)

theorem findRepoByPath_ok_some (old : List Node) (p : String) (c : Node)
    (h : findRepoByPath old p = .ok (some c)) :
    kindPath c.kind = some p := by
  induction old with
  | nil => simp [findRepoByPath] at h
  | cons d rest ih =>
    obtain ⟨did, dk⟩ := d
    cases dk with
    | message t => simp [findRepoByPath] at h
    | repository r =>
      by_cases hp : r.normalizedPath = p
      · simp [findRepoByPath, hp] at h
        subst h
        simp [kindPath, hp]
      · simp [findRepoByPath, hp] at h
        exact ih h

theorem childPaths_reconcileE_ok (old : List Node) (l : List Repository) :
    ∀ n cs n2 evs, reconcileE old l n = .ok (cs, n2, evs) →
      childPaths cs = l.map Repository.normalizedPath := by
  induction l with
  | nil =>
    intro n cs n2 evs h
    simp only [reconcileE, Except.ok.injEq, Prod.mk.injEq] at h
    obtain ⟨h1, h2, h3⟩ := h
    subst h1
    rfl
  | cons r rest ih =>
    intro n cs n2 evs h
    simp only [reconcileE] at h
    cases hf : findRepoByPath old r.normalizedPath with
    | error e =>
      rw [hf] at h
      simp at h
    | ok oc =>
      rw [hf] at h
      cases oc with
      | some c =>
        cases hr : reconcileE old rest n with
        | ok t =>
          obtain ⟨cs1, n1, evs1⟩ := t
          rw [hr] at h
          simp only [Except.ok.injEq, Prod.mk.injEq] at h
          obtain ⟨h1, h2, h3⟩ := h
          subst h1
          have ht := ih n cs1 n1 evs1 hr
          have hkp := findRepoByPath_ok_some old r.normalizedPath c hf
          simp [childPaths, List.filterMap_cons, hkp] at ht ⊢
          exact ht
        | error t =>
          rw [hr] at h
          simp at h
      | none =>
        cases hr : reconcileE old rest (n + 1) with
        | ok t =>
          obtain ⟨cs1, n1, evs1⟩ := t
          rw [hr] at h
          simp only [Except.ok.injEq, Prod.mk.injEq] at h
          obtain ⟨h1, h2, h3⟩ := h
          subst h1
          have ht := ih (n + 1) cs1 n1 evs1 hr
          simp [childPaths, List.filterMap_cons, kindPath] at ht ⊢
          exact ht
        | error t =>
          rw [hr] at h
          simp at h

/-- The TypeError path is reachable in the model dynamics: once a refresh
with an empty backend set has collapsed the cache to the placeholder
`MessageNode`, a subsequent refresh with a non-empty set throws (the find
callback reads `.repo` of the cached `MessageNode` on its first iteration)
and the placeholder cache stays installed unchanged. -/
theorem refresh_after_collapse_throws :
    refreshRun [] ⟨some [⟨0, .repository rOpenA⟩], 7⟩
      = .ok (⟨some [⟨7, .message "No repositories found"⟩], 8⟩, [])
    ∧ refreshRun [rOpenA] ⟨some [⟨7, .message "No repositories found"⟩], 8⟩
      = .error (⟨some [⟨7, .message "No repositories found"⟩], 8⟩, []) := by
  refine ⟨rfl, rfl⟩

/-- C4 counterexample: after caching children for the open repository `/a`,
a `refresh()` returning only the CLOSED repository `/b` completes (no
`MessageNode` is in the cache) and leaves the cache holding a child for
`/b` — `refresh` does not apply the closed filter, so the cached children
list contains a child for a repository whose closed flag is true, refuting
the claim. -/
theorem c4_refresh_keeps_closed_repo :
    refreshRun [rClosedB] (getChildrenRun [rOpenA] ⟨none, 0⟩).2
      = .ok ({ children := some [⟨1, .repository rClosedB⟩], nextId := 2 },
          [.disposed 0])
    ∧ rClosedB.closed = true := by
  refine ⟨rfl, rfl⟩

theorem childPaths_mkRepoChildren (l : List Repository) (n : Nat) :
    childPaths (mkRepoChildren l n).1
      = (l.filter (fun r => !r.closed)).map Repository.normalizedPath := by
  induction l generalizing n with
  | nil => rfl
  | cons a rest ih =>
    cases h : a.closed with
    | true => simp [mkRepoChildren, h, ih]
    | false =>
      have hrec := ih (n + 1)
      simp [mkRepoChildren, h, childPaths, kindPath, List.filterMap_cons] at hrec ⊢
      exact hrec

theorem mkRepoChildren_open (l : List Repository) (n : Nat) :
    ∀ c ∈ (mkRepoChildren l n).1, ∀ r, c.kind = .repository r → r.closed = false := by
  induction l generalizing n with
  | nil => simp [mkRepoChildren]
  | cons a rest ih =>
    cases h : a.closed with
    | true =>
      simp only [mkRepoChildren, h, if_pos]
      exact ih n
    | false =>
      intro c hc r hk
      rcases (by simpa [mkRepoChildren, h] using hc : c = ⟨n, .repository a⟩
          ∨ c ∈ (mkRepoChildren rest (n + 1)).1) with hceq | hmem
      · rw [hceq] at hk
        cases NodeKind.repository.inj hk
        exact h
      · exact ih (n + 1) c hmem r hk

/-- C4 (amended): provided the backend never returns two repositories with
the same normalized path, the cached children list after a first
`getChildren()` has pairwise-distinct normalized paths and contains no
child for a closed repository.  For `refresh()`: whenever the refresh
COMPLETES (the find callback never hits a cached `MessageNode`), the newly
installed cache again has pairwise-distinct normalized paths — but
`refresh` does NOT exclude closed repositories, so a child for a repository
whose closed flag is true can be present (see the counterexample); and when
the refresh instead throws the TypeError, the old cache is left installed
unchanged. -/
theorem c4_children_paths_invariant (repos : List Repository)
    (s : RepositoriesNodeState)
    (hnodup : (repos.map Repository.normalizedPath).Nodup) :
    (s.children = none →
      (childPaths (getChildrenRun repos s).1).Nodup
      ∧ ∀ c ∈ (getChildrenRun repos s).1, ∀ r, c.kind = .repository r →
          r.closed = false)
    ∧ (∀ old, s.children = some old →
        (∀ st evs, refreshRun repos s = .ok (st, evs) →
          ∀ cs, st.children = some cs → (childPaths cs).Nodup)
        ∧ (∀ st evs, refreshRun repos s = .error (st, evs) →
          st.children = some old)) := by
  have hsortNodup : ((sortRepos repos).map Repository.normalizedPath).Nodup :=
    (((List.perm_insertionSort repoLE repos).map Repository.normalizedPath).nodup_iff).mpr
      hnodup
  constructor
  · intro h
    by_cases hr : repos = []
    · constructor
      · simp [getChildrenRun, h, hr, childPaths, kindPath]
      · intro c hc r hk
        simp only [getChildrenRun, h, hr, if_pos, List.mem_singleton] at hc
        rw [hc] at hk
        simp at hk
    · have hcp : childPaths (getChildrenRun repos s).1
          = ((sortRepos repos).filter (fun r => !r.closed)).map
              Repository.normalizedPath := by
        simp [getChildrenRun, h, hr, childPaths_mkRepoChildren]
      constructor
      · rw [hcp]
        exact (((sortRepos repos).filter_sublist).map Repository.normalizedPath).nodup
          hsortNodup
      · intro c hc r hk
        have hmem : c ∈ (mkRepoChildren (sortRepos repos) s.nextId).1 := by
          simpa [getChildrenRun, h, hr] using hc
        exact mkRepoChildren_open _ _ c hmem r hk
  · intro old hold
    constructor
    · intro st evs hok cs hcs
      by_cases hr : repos = []
      · subst hr
        by_cases ho : old = []
        · subst ho
          simp [refreshRun, hold] at hok
          obtain ⟨h1, h2⟩ := hok
          subst h1
          rw [hold] at hcs
          cases Option.some.inj hcs
          simp [childPaths]
        · simp [refreshRun, hold, ho] at hok
          obtain ⟨h1, h2⟩ := hok
          subst h1
          simp at hcs
          subst hcs
          simp [childPaths, kindPath]
      · cases hrec : reconcileE old (sortRepos repos) s.nextId with
        | error t => simp [refreshRun, hold, hr, hrec] at hok
        | ok t =>
          obtain ⟨cs1, n1, evs1⟩ := t
          simp [refreshRun, hold, hr, hrec] at hok
          obtain ⟨h1, h2⟩ := hok
          subst h1
          simp at hcs
          subst hcs
          rw [childPaths_reconcileE_ok old (sortRepos repos) s.nextId cs1 n1 evs1
            hrec]
          exact hsortNodup
    · intro st evs herr
      by_cases hr : repos = []
      · subst hr
        by_cases ho : old = [] <;> simp [refreshRun, hold, ho] at herr
      · cases hrec : reconcileE old (sortRepos repos) s.nextId with
        | ok t => simp [refreshRun, hold, hr, hrec] at herr
        | error t =>
          obtain ⟨n1, evs1⟩ := t
          simp [refreshRun, hold, hr, hrec] at herr
          obtain ⟨h1, h2⟩ := herr
          subst h1
          simp [hold]

/-- Witness for C4 (amended) at a concrete one-repository backend set and a
state whose cache already holds the repository child (so the refresh
conjuncts are exercised on a completing refresh). -/
theorem c4_children_paths_invariant_witness :
    ((⟨some [⟨0, .repository rOpenA⟩], 1⟩ : RepositoriesNodeState).children = none →
      (childPaths (getChildrenRun [rOpenA] ⟨some [⟨0, .repository rOpenA⟩], 1⟩).1).Nodup
      ∧ ∀ c ∈ (getChildrenRun [rOpenA] ⟨some [⟨0, .repository rOpenA⟩], 1⟩).1, ∀ r,
          c.kind = .repository r → r.closed = false)
    ∧ (∀ old, (⟨some [⟨0, .repository rOpenA⟩], 1⟩
          : RepositoriesNodeState).children = some old →
        (∀ st evs, refreshRun [rOpenA] ⟨some [⟨0, .repository rOpenA⟩], 1⟩
            = .ok (st, evs) →
          ∀ cs, st.children = some cs → (childPaths cs).Nodup)
        ∧ (∀ st evs, refreshRun [rOpenA] ⟨some [⟨0, .repository rOpenA⟩], 1⟩
            = .error (st, evs) →
          st.children = some old)) :=
  c4_children_paths_invariant [rOpenA] ⟨some [⟨0, .repository rOpenA⟩], 1⟩
    (by decide)

/-- C5 counterexample: in a state whose root node is the instance with id 0
and whose tree handle is bound at `"explorer"`, a location change to
`"scm"` leaves the SAME root instance in place (`setRoot` only creates a
root when none exists) — no fresh `RepositoriesNode` replaces it, refuting
the claim. -/
theorem c5_location_change_keeps_root :
    (onLocationChanged ⟨some 0, some ⟨1, "explorer"⟩, 0, 2, []⟩ "scm").root = some 0
    ∧ (onLocationChanged ⟨some 0, some ⟨1, "explorer"⟩, 0, 2, []⟩ "scm").tree
        = some ⟨2, "scm"⟩ := by
  refine ⟨rfl, rfl⟩

/-- C5 (amended): when the view-location setting changes with a root and a
tree handle present, the old tree handle is disposed, the tree-data event
emitter is recreated, and a fresh tree handle is bound at the new location
— but the root node is NOT recreated: the existing root instance is
retained (`setRoot` creates a root only when none exists). -/
theorem c5_location_change_spec (s : GitExplorerViewState) (newLoc : String)
    (r : Nat) (t : TreeHandle) (hroot : s.root = some r) (htree : s.tree = some t) :
    (onLocationChanged s newLoc).root = some r
    ∧ (onLocationChanged s newLoc).disposedTrees = s.disposedTrees ++ [t.id]
    ∧ (onLocationChanged s newLoc).emitterGen = s.emitterGen + 1
    ∧ (onLocationChanged s newLoc).tree = some ⟨s.nextId, newLoc⟩ := by
  simp [onLocationChanged, setRoot, hroot, htree]

/-- Witness for C5 (amended) at a concrete state. -/
theorem c5_location_change_spec_witness :
    (onLocationChanged ⟨some 0, some ⟨1, "explorer"⟩, 0, 2, []⟩ "scm").root = some 0
    ∧ (onLocationChanged ⟨some 0, some ⟨1, "explorer"⟩, 0, 2, []⟩ "scm").disposedTrees
        = ([] : List Nat) ++ [(⟨1, "explorer"⟩ : TreeHandle).id]
    ∧ (onLocationChanged ⟨some 0, some ⟨1, "explorer"⟩, 0, 2, []⟩ "scm").emitterGen
        = 0 + 1
    ∧ (onLocationChanged ⟨some 0, some ⟨1, "explorer"⟩, 0, 2, []⟩ "scm").tree
        = some ⟨2, "scm"⟩ :=
  c5_location_change_spec ⟨some 0, some ⟨1, "explorer"⟩, 0, 2, []⟩ "scm" 0
    ⟨1, "explorer"⟩ rfl rfl

/-- C6 counterexample: with the global flag enabled and an explicit
workspace override `false`, the override path is taken (the override is
persisted) yet NO tree refresh is triggered — refuting the claim that the
override path triggers a refresh for every value of the override (the code
refreshes only when `toggled`, i.e. only when the override is `true`). -/
theorem c6_override_false_no_refresh :
    AREvent.persisted false ∈ (setAutoRefresh true (some false) ⟨none, none, 0⟩).2
    ∧ AREvent.refreshed ∉ (setAutoRefresh true (some false) ⟨none, none, 0⟩).2 := by
  decide

/-- C6 (amended): `setAutoRefresh` triggers the tree refresh
(`AutoRefreshChanged`) exactly when the global flag is enabled AND the
explicit override was supplied with value `true`; the override is persisted
and the auto-refresh-changed notification fired exactly when the global
flag is enabled and an override was supplied — never on the default-read
path, and never when the global flag is disabled. -/
theorem c6_setAutoRefresh_refresh_trigger (enabled : Bool) (we : Option Bool)
    (s : AutoRefreshState) :
    (AREvent.refreshed ∈ (setAutoRefresh enabled we s).2
      ↔ enabled = true ∧ we = some true)
    ∧ (∀ b, AREvent.persisted b ∈ (setAutoRefresh enabled we s).2
      ↔ enabled = true ∧ we = some b)
    ∧ (AREvent.firedAutoRefreshChanged ∈ (setAutoRefresh enabled we s).2
      ↔ enabled = true ∧ ∃ b, we = some b) := by
  obtain ⟨sub, wf, n⟩ := s
  cases enabled <;> rcases we with _ | wb <;>
    rcases sub with _ | i <;> rcases wf with _ | fb <;>
    (try cases wb) <;> (try cases fb) <;>
    simp [setAutoRefresh]

/-- Witness for C6 (amended) — the theorem has no hypotheses, instantiated
at a concrete enabled/override/state triple. -/
theorem c6_setAutoRefresh_refresh_trigger_witness :
    (AREvent.refreshed ∈ (setAutoRefresh true (some true) ⟨some 5, none, 7⟩).2
      ↔ true = true ∧ (some true : Option Bool) = some true)
    ∧ (∀ b, AREvent.persisted b ∈ (setAutoRefresh true (some true) ⟨some 5, none, 7⟩).2
      ↔ true = true ∧ (some true : Option Bool) = some b)
    ∧ (AREvent.firedAutoRefreshChanged
        ∈ (setAutoRefresh true (some true) ⟨some 5, none, 7⟩).2
      ↔ true = true ∧ ∃ b, (some true : Option Bool) = some b) :=
  c6_setAutoRefresh_refresh_trigger true (some true) ⟨some 5, none, 7⟩

/-- C9: after any `setAutoRefresh(enabled, workspaceOverride)` call, the
repository-change subscription is active iff the global flag AND the
effective workspace flag (override if supplied, else persisted value
defaulting to true) are both true; the previous subscription (if any) is
disposed, and disposed first (it is the first emitted action), so at most
one subscription is ever active; and the combined effective boolean is
always published to the command-visibility context channel (and nothing
else is ever published there). -/
theorem c9_setAutoRefresh_subscription (enabled : Bool) (we : Option Bool)
    (s : AutoRefreshState) :
    ((setAutoRefresh enabled we s).1.sub.isSome
        = (enabled && effectiveWorkspaceFlag we s))
    ∧ (∀ i, AREvent.disposedSub i ∈ (setAutoRefresh enabled we s).2 ↔ s.sub = some i)
    ∧ (∀ i, s.sub = some i →
        ((setAutoRefresh enabled we s).2).head? = some (.disposedSub i))
    ∧ (AREvent.setContext (enabled && effectiveWorkspaceFlag we s)
        ∈ (setAutoRefresh enabled we s).2)
    ∧ (∀ b, AREvent.setContext b ∈ (setAutoRefresh enabled we s).2 →
        b = (enabled && effectiveWorkspaceFlag we s)) := by
  obtain ⟨sub, wf, n⟩ := s
  cases enabled <;> rcases we with _ | wb <;>
    rcases sub with _ | i <;> rcases wf with _ | fb <;>
    (try cases wb) <;> (try cases fb) <;>
    simp [setAutoRefresh, effectiveWorkspaceFlag] <;> exact fun j => eq_comm

/-- Witness for C9: a previous subscription (id 5) exists, the global flag
is enabled and the override is `true`; the hypothesis-bearing conjunct is
discharged at `i = 5`. -/
theorem c9_setAutoRefresh_subscription_witness :
    ((setAutoRefresh true (some true) ⟨some 5, none, 7⟩).1.sub.isSome
        = (true && effectiveWorkspaceFlag (some true) ⟨some 5, none, 7⟩))
    ∧ (∀ i, AREvent.disposedSub i ∈ (setAutoRefresh true (some true) ⟨some 5, none, 7⟩).2
        ↔ (⟨some 5, none, 7⟩ : AutoRefreshState).sub = some i)
    ∧ (∀ i, (⟨some 5, none, 7⟩ : AutoRefreshState).sub = some i →
        ((setAutoRefresh true (some true) ⟨some 5, none, 7⟩).2).head?
          = some (.disposedSub i))
    ∧ (AREvent.setContext (true && effectiveWorkspaceFlag (some true) ⟨some 5, none, 7⟩)
        ∈ (setAutoRefresh true (some true) ⟨some 5, none, 7⟩).2)
    ∧ (∀ b, AREvent.setContext b ∈ (setAutoRefresh true (some true) ⟨some 5, none, 7⟩).2 →
        b = (true && effectiveWorkspaceFlag (some true) ⟨some 5, none, 7⟩)) :=
  c9_setAutoRefresh_subscription true (some true) ⟨some 5, none, 7⟩

/-- C2 counterexample: while debugging with `hovers.currentLine.over`
set to `line`, both hovers are produced with range start character 5 (the
end-of-line sub-range position), NOT 0 — the debugging flag forces
`wholeLine` to FALSE, the opposite of the claim. -/
theorem c2_debugging_hover_not_whole_line :
    (provideDetailsHover envC2 0 5).hover = some ⟨5, cUncommitted⟩
    ∧ provideChangesHover envC2 0 5 = some ⟨5, "diff"⟩
    ∧ envC2.debugging = true ∧ envC2.settings.currentLineOverLine = true
    ∧ (5 : Nat) ≠ 0 := by
  refine ⟨rfl, rfl, rfl, rfl, by decide⟩

/-- C2 (amended): while a debug session is active, any hover produced by
`provideDetailsHover` or `provideChangesHover` uses the annotation
SUB-RANGE, not the whole line, regardless of the configured
`hovers.currentLine.over` mode: its range starts at
`min maxSafeInteger (lineLength)` (the clamped end-of-line position), which
must equal the queried character — never at character 0 unless the line is
empty. -/
theorem c2_debug_hover_range (env : HoverEnv) (line char : Nat)
    (hdbg : env.debugging = true) :
    (∀ hd, (provideDetailsHover env line char).hover = some hd →
        hd.startChar = min maxSafeInteger (env.lineLength line)
        ∧ hd.startChar = char)
    ∧ (∀ hc, provideChangesHover env line char = some hc →
        hc.startChar = min maxSafeInteger (env.lineLength line)
        ∧ hc.startChar = char) := by
  constructor
  · intro hd heq
    simp only [provideDetailsHover, hdbg, Bool.false_eq_true, false_and, if_false,
      ite_true, ite_false, true_and] at heq
    repeat' split at heq
    all_goals (try simp_all)
    all_goals (subst heq; rfl)
  · intro hc heq
    simp only [provideChangesHover, hdbg, Bool.false_eq_true, false_and, if_false,
      ite_true, ite_false, true_and] at heq
    repeat' split at heq
    all_goals (try simp_all)
    all_goals (subst heq; rfl)

/-- Witness for C2 (amended): in the debugging environment `envC2` a
details hover is actually produced (see the counterexample theorem), and
the range equations hold at line 0, character 5. -/
theorem c2_debug_hover_range_witness :
    (∀ hd, (provideDetailsHover envC2 0 5).hover = some hd →
        hd.startChar = min maxSafeInteger (envC2.lineLength 0)
        ∧ hd.startChar = 5)
    ∧ (∀ hc, provideChangesHover envC2 0 5 = some hc →
        hc.startChar = min maxSafeInteger (envC2.lineLength 0)
        ∧ hc.startChar = 5) :=
  c2_debug_hover_range envC2 0 5 rfl

/-- C10: for a tracked line whose attributed blame commit is uncommitted
and whose cached log commit is absent, `provideDetailsHover` makes no
`getLogCommitForFile` backend call, leaves the line state unchanged (so its
`logCommit` stays undefined), and any hover it produces builds its message
from the lighter blame commit itself. -/
theorem c10_uncommitted_no_log_fetch (env : HoverEnv) (line char : Nat)
    (st : LineState) (c : Commit)
    (hst : env.getState line = some st) (hc : st.commit = some c)
    (hunc : c.isUncommitted = true) (hlog : st.logCommit = none) :
    (provideDetailsHover env line char).gitLogCalls = []
    ∧ (provideDetailsHover env line char).lineStateAfter = some st
    ∧ (∀ hd, (provideDetailsHover env line char).hover = some hd →
        hd.messageCommit = c) := by
  simp only [provideDetailsHover, hst, hc, hunc, hlog]
  repeat' split
  all_goals simp_all

/-- Witness for C10 in the concrete environment `envC2` (line 0 tracked,
uncommitted blame commit, no cached log commit). -/
theorem c10_uncommitted_no_log_fetch_witness :
    (provideDetailsHover envC2 0 5).gitLogCalls = []
    ∧ (provideDetailsHover envC2 0 5).lineStateAfter
        = some ⟨some cUncommitted, none⟩
    ∧ (∀ hd, (provideDetailsHover envC2 0 5).hover = some hd →
        hd.messageCommit = cUncommitted) :=
  c10_uncommitted_no_log_fetch envC2 0 5 ⟨some cUncommitted, none⟩ cUncommitted
    rfl rfl rfl rfl
